import Mathlib

/-!
Verification of the RAG pipeline of the OceanAI QA-agent repository.

The Python sources `src/app/rag.py`, `src/app/models.py` and `src/main.py` are
shallowly embedded below: pure helpers become Lean functions, the module-level
mutable globals (`vector_store`, `embedding_function`) and the persisted FAISS
directory become an explicit `RagState` threaded through the operations, and
library behaviour that the code relies on (`json.loads`, `re.search`,
`BeautifulSoup.get_text`, `pathlib.Path.suffix`, FastAPI's required-field
validation) is modelled by executable Lean functions that follow the library
semantics on the inputs the pipeline feeds them.  Failures raised as
`HTTPException` are modelled by a dedicated error type whose constructors are
named after the distinct `detail` messages of the source.
-/

set_option maxRecDepth 10000

/-! ## Python string helpers -/

/-- The ASCII whitespace characters stripped by Python's `str.strip()`. -/
def isPyWs (c : Char) : Bool :=
  c = ' ' || c = '\t' || c = '\n' || c = '\r' || c = '\x0b' || c = '\x0c'

def stripChars (cs : List Char) : List Char :=
  ((cs.dropWhile isPyWs).reverse.dropWhile isPyWs).reverse

/-- Model of Python's `str.strip()` (ASCII whitespace). -/
def pyStrip (s : String) : String := String.mk (stripChars s.data)

/-- Model of Python's `str.split(sep)` for a one-character separator:
`"".split(",") == [""]`, and empty pieces are kept. -/
def splitOnChar (sep : Char) : List Char → List (List Char)
  | [] => [[]]
  | c :: cs =>
    let rest := splitOnChar sep cs
    if c = sep then [] :: rest
    else
      match rest with
      | [] => [[c]]
      | r :: rs => (c :: r) :: rs

def firstIdxOf (c : Char) : List Char → Option Nat
  | [] => none
  | x :: xs => if x = c then some 0 else (firstIdxOf c xs).map (· + 1)

def lastIdxOf (c : Char) : List Char → Option Nat
  | [] => none
  | x :: xs =>
    match lastIdxOf c xs with
    | some i => some (i + 1)
    | none => if x = c then some 0 else none

/-! ## JSON values and a model of Python's json.loads

`json.loads` is modelled by a recursive-descent parser over the character
list, with a fuel argument for termination.  Numbers are kept as their raw
lexeme (the pipeline never inspects numeric values), object keys are
deduplicated with last-occurrence-wins exactly as building a Python dict does,
and the `NaN` / `Infinity` extensions accepted by `json.loads` are recognised.
Surrogate-pair `\uXXXX` escapes are mapped character-wise rather than
combined; no verified property depends on such inputs. -/

inductive JsonValue where
  | null : JsonValue
  | bool : Bool → JsonValue
  | num : String → JsonValue
  | str : String → JsonValue
  | arr : List JsonValue → JsonValue
  | obj : List (String × JsonValue) → JsonValue

/-- Lookup in a decoded JSON object, i.e. Python's `dict.get(k)`. -/
def objGet (fields : List (String × JsonValue)) (k : String) : Option JsonValue :=
  (fields.find? (fun p => p.1 = k)).map (fun p => p.2)

/-- Insert-or-overwrite, i.e. Python's `d[k] = v` on a dict: replace the
value at an existing key in place, append a missing key at the end. -/
def objUpsert : List (String × JsonValue) → String → JsonValue →
    List (String × JsonValue)
  | [], k, v => [(k, v)]
  | p :: ps, k, v => if p.1 = k then (k, v) :: ps else p :: objUpsert ps k v

/-- JSON insignificant whitespace (RFC 8259, as accepted by `json.loads`). -/
def jsonSkipWs : List Char → List Char
  | c :: cs =>
    if c = ' ' || c = '\t' || c = '\n' || c = '\r' then jsonSkipWs cs else c :: cs
  | [] => []

def hexVal (c : Char) : Option Nat :=
  if '0' ≤ c ∧ c ≤ '9' then some (c.toNat - '0'.toNat)
  else if 'a' ≤ c ∧ c ≤ 'f' then some (c.toNat - 'a'.toNat + 10)
  else if 'A' ≤ c ∧ c ≤ 'F' then some (c.toNat - 'A'.toNat + 10)
  else none

def jsonEscapeChar (e : Char) : Option Char :=
  if e = '"' then some '"'
  else if e = '\\' then some '\\'
  else if e = '/' then some '/'
  else if e = 'b' then some '\x08'
  else if e = 'f' then some '\x0c'
  else if e = 'n' then some '\n'
  else if e = 'r' then some '\r'
  else if e = 't' then some '\t'
  else none

/-- Parse the body of a JSON string after the opening quote; returns the
decoded characters and the remainder after the closing quote.  Raw control
characters are rejected, as `json.loads` does in its default strict mode. -/
def parseJsonStringBody : List Char → Option (List Char × List Char)
  | [] => none
  | '"' :: rest => some ([], rest)
  | '\\' :: 'u' :: h1 :: h2 :: h3 :: h4 :: rest =>
    match hexVal h1, hexVal h2, hexVal h3, hexVal h4 with
    | some a, some b, some c, some d =>
      (parseJsonStringBody rest).map
        (fun p => (Char.ofNat (((a * 16 + b) * 16 + c) * 16 + d) :: p.1, p.2))
    | _, _, _, _ => none
  | '\\' :: e :: rest =>
    match jsonEscapeChar e with
    | some ch => (parseJsonStringBody rest).map (fun p => (ch :: p.1, p.2))
    | none => none
  | c :: rest =>
    if c.toNat < 32 then none
    else (parseJsonStringBody rest).map (fun p => (c :: p.1, p.2))

def takeDigits : List Char → List Char × List Char
  | [] => ([], [])
  | c :: cs =>
    if c.isDigit then
      let p := takeDigits cs
      (c :: p.1, p.2)
    else ([], c :: cs)

def parseJsonExp (acc : List Char) (cs : List Char) : Option (List Char × List Char) :=
  match cs with
  | e :: rest =>
    if e = 'e' || e = 'E' then
      let p : List Char × List Char :=
        match rest with
        | '+' :: r => (['+'], r)
        | '-' :: r => (['-'], r)
        | _ => ([], rest)
      match takeDigits p.2 with
      | ([], _) => none
      | (ds, rest2) => some (acc ++ [e] ++ p.1 ++ ds, rest2)
    else some (acc, cs)
  | [] => some (acc, [])

def parseJsonFrac (acc : List Char) (cs : List Char) : Option (List Char × List Char) :=
  match cs with
  | '.' :: rest =>
    match takeDigits rest with
    | ([], _) => none
    | (ds, rest1) => parseJsonExp (acc ++ ['.'] ++ ds) rest1
  | _ => parseJsonExp acc cs

/-- Parse a JSON number lexeme (sign, integer part, optional fraction and
exponent), returning the raw lexeme and the remainder. -/
def parseJsonNumber (cs : List Char) : Option (List Char × List Char) :=
  let p : List Char × List Char :=
    match cs with
    | '-' :: rest => (['-'], rest)
    | _ => ([], cs)
  match p.2 with
  | '0' :: rest => parseJsonFrac (p.1 ++ ['0']) rest
  | c :: _ =>
    if c.isDigit then
      match takeDigits p.2 with
      | (ds, rest) => parseJsonFrac (p.1 ++ ds) rest
    else none
  | [] => none

mutual

def parseJsonValue : Nat → List Char → Option (JsonValue × List Char)
  | 0, _ => none
  | fuel + 1, cs =>
    match jsonSkipWs cs with
    | 'n' :: 'u' :: 'l' :: 'l' :: rest => some (.null, rest)
    | 't' :: 'r' :: 'u' :: 'e' :: rest => some (.bool true, rest)
    | 'f' :: 'a' :: 'l' :: 's' :: 'e' :: rest => some (.bool false, rest)
    | 'N' :: 'a' :: 'N' :: rest => some (.num "NaN", rest)
    | 'I' :: 'n' :: 'f' :: 'i' :: 'n' :: 'i' :: 't' :: 'y' :: rest =>
      some (.num "Infinity", rest)
    | '-' :: 'I' :: 'n' :: 'f' :: 'i' :: 'n' :: 'i' :: 't' :: 'y' :: rest =>
      some (.num "-Infinity", rest)
    | '"' :: rest => (parseJsonStringBody rest).map (fun p => (.str (String.mk p.1), p.2))
    | '[' :: rest => parseJsonArrayItems fuel rest
    | '{' :: rest => parseJsonObjFirst fuel rest
    | cs2 => (parseJsonNumber cs2).map (fun p => (.num (String.mk p.1), p.2))

def parseJsonArrayItems : Nat → List Char → Option (JsonValue × List Char)
  | 0, _ => none
  | fuel + 1, cs =>
    match jsonSkipWs cs with
    | ']' :: rest => some (.arr [], rest)
    | cs2 =>
      match parseJsonValue fuel cs2 with
      | some (v, rest) => parseJsonArrayRest fuel [v] rest
      | none => none

def parseJsonArrayRest : Nat → List JsonValue → List Char → Option (JsonValue × List Char)
  | 0, _, _ => none
  | fuel + 1, acc, cs =>
    match jsonSkipWs cs with
    | ',' :: rest =>
      match parseJsonValue fuel rest with
      | some (v, rest1) => parseJsonArrayRest fuel (acc ++ [v]) rest1
      | none => none
    | ']' :: rest => some (.arr acc, rest)
    | _ => none

def parseJsonMember : Nat → List Char → Option (String × JsonValue × List Char)
  | 0, _ => none
  | fuel + 1, cs =>
    match jsonSkipWs cs with
    | '"' :: rest =>
      match parseJsonStringBody rest with
      | some (kcs, rest1) =>
        match jsonSkipWs rest1 with
        | ':' :: rest2 =>
          match parseJsonValue fuel rest2 with
          | some (v, rest3) => some (String.mk kcs, v, rest3)
          | none => none
        | _ => none
      | none => none
    | _ => none

def parseJsonObjFirst : Nat → List Char → Option (JsonValue × List Char)
  | 0, _ => none
  | fuel + 1, cs =>
    match jsonSkipWs cs with
    | '}' :: rest => some (.obj [], rest)
    | cs2 =>
      match parseJsonMember fuel cs2 with
      | some (k, v, rest) => parseJsonObjRest fuel (objUpsert [] k v) rest
      | none => none

def parseJsonObjRest : Nat → List (String × JsonValue) → List Char →
    Option (JsonValue × List Char)
  | 0, _, _ => none
  | fuel + 1, acc, cs =>
    match jsonSkipWs cs with
    | ',' :: rest =>
      match parseJsonMember fuel rest with
      | some (k, v, rest1) => parseJsonObjRest fuel (objUpsert acc k v) rest1
      | none => none
    | '}' :: rest => some (.obj acc, rest)
    | _ => none

end

/-- Model of Python's `json.loads`: parse one JSON value surrounded only by
insignificant whitespace; `none` models a raised `JSONDecodeError`. -/
def jsonLoads (s : String) : Option JsonValue :=
  match parseJsonValue (2 * s.data.length + 8) s.data with
  | some (v, rest) => if jsonSkipWs rest = [] then some v else none
  | none => none


/-! ## A model of json.dumps(v, indent=2)

Only the structure matters for the verified properties (the pipeline never
re-parses the dumped text); escaping of characters beyond the common ones and
the `ensure_ascii` transliteration are not modelled bit-for-bit. -/

def jsonEscOut (c : Char) : List Char :=
  if c = '"' then ['\\', '"']
  else if c = '\\' then ['\\', '\\']
  else if c = '\n' then ['\\', 'n']
  else if c = '\t' then ['\\', 't']
  else if c = '\r' then ['\\', 'r']
  else [c]

def jsonDumpString (s : String) : String :=
  "\"" ++ String.mk (s.data.flatMap jsonEscOut) ++ "\""

def spacesStr (n : Nat) : String := String.mk (List.replicate n ' ')

mutual

def jsonDumpsVal : Nat → JsonValue → String
  | _, .null => "null"
  | _, .bool true => "true"
  | _, .bool false => "false"
  | _, .num l => l
  | _, .str s => jsonDumpString s
  | _, .arr [] => "[]"
  | ind, .arr (x :: xs) =>
    "[\n" ++ jsonDumpsItems (ind + 2) (x :: xs) ++ "\n" ++ spacesStr ind ++ "]"
  | _, .obj [] => "\x7b\x7d"
  | ind, .obj (f :: fs) =>
    "\x7b\n" ++ jsonDumpsFields (ind + 2) (f :: fs) ++ "\n" ++ spacesStr ind ++ "\x7d"

def jsonDumpsItems : Nat → List JsonValue → String
  | _, [] => ""
  | ind, [x] => spacesStr ind ++ jsonDumpsVal ind x
  | ind, x :: y :: xs =>
    spacesStr ind ++ jsonDumpsVal ind x ++ ",\n" ++ jsonDumpsItems ind (y :: xs)

def jsonDumpsFields : Nat → List (String × JsonValue) → String
  | _, [] => ""
  | ind, [(k, v)] => spacesStr ind ++ jsonDumpString k ++ ": " ++ jsonDumpsVal ind v
  | ind, (k, v) :: g :: fs =>
    spacesStr ind ++ jsonDumpString k ++ ": " ++ jsonDumpsVal ind v ++ ",\n" ++
      jsonDumpsFields ind (g :: fs)

end

/-- Model of Python's `json.dumps(v, indent=2)`. -/
def jsonDumps (v : JsonValue) : String := jsonDumpsVal 0 v

/-! ## A model of BeautifulSoup's get_text(separator=' ', strip=True)

The text nodes of the markup are collected by skipping over tags, each node is
stripped, empty nodes are dropped and the rest are joined by a single space.
This follows `get_text` for plain well-formed markup; entity references,
comments and CDATA sections are not modelled (no verified property feeds
them). -/

mutual

def htmlWalk : List Char → List Char → List (List Char)
  | [], cur => [cur.reverse]
  | '<' :: rest, cur => cur.reverse :: htmlInTag rest
  | c :: rest, cur => htmlWalk rest (c :: cur)

def htmlInTag : List Char → List (List Char)
  | [] => []
  | '>' :: rest => htmlWalk rest []
  | _ :: rest => htmlInTag rest

end

def htmlGetText (s : String) : String :=
  let segs := ((htmlWalk s.data []).map stripChars).filter (fun cs => cs ≠ [])
  String.intercalate " " (segs.map String.mk)

/-! ## File names and the document parser (_parse_document) -/

/-- Model of Python's `str.lower()` on the ASCII range (file suffixes). -/
def toLowerChar (c : Char) : Char :=
  if 'A' ≤ c ∧ c ≤ 'Z' then Char.ofNat (c.toNat + 32) else c

def pyLower (s : String) : String := String.mk (s.data.map toLowerChar)

/-- Model of `pathlib.Path(name).suffix` for a plain file name: the part of
the name from its last dot on, empty when the dot is leading or absent. -/
def pathSuffix (name : String) : String :=
  let cs := name.data
  match lastIdxOf '.' cs with
  | some i => if 0 < i ∧ i + 1 < cs.length then String.mk (cs.drop i) else ""
  | none => ""

/-- A file on disk as `_parse_document` observes it: `text` is the UTF-8
decoding of its bytes (`none` when reading or decoding raises).  For PDF
files, the source accumulates `page.get_text()` page by page inside the
enclosing `try`, so `pdfPages` is the page text PyMuPDF yields **before any
failure** — all pages when extraction completes, the pages extracted so far
when `load_page`/`get_text` raises mid-loop, and `[]` when `fitz.open`
itself raises — and `pdfError` records whether such an exception was
raised (caught at rag.py line 96). -/
structure SrcFile where
  name : String
  text : Option String
  pdfPages : List String
  pdfError : Bool
deriving DecidableEq, Repr

/-- Embedding of `_parse_document` (src/app/rag.py lines 73-98): dispatch on
the lower-cased suffix; `.md`/`.txt` return the raw text, `.json` re-serialises
the parsed value with `json.dumps(..., indent=2)`, `.pdf` concatenates the
page texts, `.html` extracts text with BeautifulSoup, anything else is
unsupported.  Every error is caught and the accumulated `content` is
returned: the empty string in every non-PDF branch, and for the PDF branch
the concatenation of the pages accumulated before the failure — which is why
its result is `String.join f.pdfPages` whether or not extraction raised. -/
def _parse_document (f : SrcFile) : String :=
  let sfx := pyLower (pathSuffix f.name)
  if sfx = ".md" || sfx = ".txt" then
    match f.text with
    | some t => t
    | none => ""
  else if sfx = ".json" then
    match f.text with
    | some t =>
      match jsonLoads t with
      | some v => jsonDumps v
      | none => ""
    | none => ""
  else if sfx = ".pdf" then
    String.join f.pdfPages
  else if sfx = ".html" then
    match f.text with
    | some t => htmlGetText t
    | none => ""
  else ""


/-! ## Data model: documents, the vector store, process state, errors -/

/-- A LangChain `Document`: page content plus the two metadata keys this
pipeline writes (`source`, `type`).  A missing key is `none`, matching
`dict.get` returning `None`. -/
structure LCDoc where
  page_content : String
  source : Option String
  type : Option String
deriving DecidableEq, Repr

/-- An uploaded file as the FastAPI handlers see it.  `text` is the UTF-8
decoding of the uploaded bytes (`none` when decoding raises), `pdfPages` and
`pdfError` describe the PyMuPDF extraction of a PDF upload exactly as in
`SrcFile` (the pages accumulated before any failure, and whether one was
raised), and `readOk` models whether the read/temp-file round trip of the
upload raises. -/
structure UploadFile where
  filename : String
  text : Option String
  pdfPages : List String
  pdfError : Bool
  readOk : Bool
deriving DecidableEq, Repr

/-- The FAISS store: the indexed chunks plus the similarity ranking the
embedding space induces — `rank q` lists chunk indices nearest-first for
query `q`.  The ranking itself is opaque (nearest-neighbour search is a
capability, not an algorithm the claims constrain). -/
structure VectorStore where
  docs : List LCDoc
  rank : String → List Nat

/-- `similarity_search(query, k)`: the first `k` ranked chunks. -/
def VectorStore.search (vs : VectorStore) (q : String) (k : Nat) : List LCDoc :=
  ((vs.rank q).take k).filterMap (fun i => vs.docs.get? i)

/-- The process-wide state of `src/app/rag.py`: the `vector_store` global,
whether `embedding_function` has been initialised, whether the
`FAISS_PERSIST_DIR` directory exists on disk (the exact condition
`os.path.exists` tests), and the store the persisted files decode to
(`none` when the directory has no loadable index). -/
structure RagState where
  memory : Option VectorStore
  embeddingLoaded : Bool
  persistDirExists : Bool
  persisted : Option VectorStore

/-- Environment parameters the pipeline is generic over: the LangChain
`CharacterTextSplitter.split_documents` behaviour, the similarity ranking the
embedding model induces on an indexed chunk list, and the generative model as
a map from prompt to reply. -/
structure Config where
  split : List LCDoc → List LCDoc
  rankSem : List LCDoc → String → List Nat
  llm : String → String

/-- The distinct failures the code raises, one constructor per
`HTTPException` detail message (plus the framework-level required-field
rejection):
`fieldRequired` — FastAPI 422 for a missing required `File(...)` field;
`unsupportedDocumentType`/`unsupportedHtmlType` — main.py 400;
`processingError` — rag.py 500 "Error processing (HTML) file ...";
`noValidDocuments` — rag.py 400 "No valid documents were provided.";
`emptyCorpus` — rag.py 400 "No documents with content remain after processing.";
`loadError` — rag.py 500 "Error loading knowledge base.";
`notReady` — rag.py 500 "Knowledge base is not built yet.";
`invalidJsonExtractionFailed` — rag.py 500 "LLM returned invalid JSON for test
cases (extraction failed)." (the spec's GenerationFormatError);
`invalidJsonNoArray` — rag.py 500 "LLM returned invalid JSON for test cases
(no array found)." (also GenerationFormatError);
`invalidTestCaseData` — rag.py 500 "LLM returned incorrectly formatted test
case data." (the spec's GenerationValidationError);
`targetMarkupNotFound` — rag.py 500 "Target HTML file content not found in
knowledge base.";
`scriptGenerationError` — rag.py 500 "Error generating Selenium script.". -/
inductive RagError where
  | fieldRequired
  | unsupportedDocumentType : String → RagError
  | unsupportedHtmlType : String → RagError
  | processingError : String → RagError
  | noValidDocuments
  | emptyCorpus
  | loadError
  | notReady
  | invalidJsonExtractionFailed
  | invalidJsonNoArray
  | invalidTestCaseData
  | targetMarkupNotFound
  | scriptGenerationError
deriving DecidableEq, Repr

/-- I/O actions of a build request, recorded to state "nothing was read,
parsed, embedded or persisted" claims. -/
inductive IOEvent where
  | readFile : String → IOEvent
  | parseFile : String → IOEvent
  | embedTexts
  | persistIndex
deriving DecidableEq, Repr

instance {ε α : Type} [DecidableEq ε] [DecidableEq α] : DecidableEq (Except ε α) :=
  fun a b =>
    match a, b with
    | .ok x, .ok y =>
      match decEq x y with
      | isTrue h => isTrue (h ▸ rfl)
      | isFalse h => isFalse (fun hc => h (Except.ok.inj hc))
    | .error x, .error y =>
      match decEq x y with
      | isTrue h => isTrue (h ▸ rfl)
      | isFalse h => isFalse (fun hc => h (Except.error.inj hc))
    | .ok _, .error _ => isFalse (fun hc => Except.noConfusion hc)
    | .error _, .ok _ => isFalse (fun hc => Except.noConfusion hc)

/-! ## Ingestion (load_and_ingest_documents, rag.py lines 100-197) -/

/-- The temp-file suffix a support upload is written with:
`"." + file.filename.split(".")[-1]` (rag.py line 110). -/
def tempSuffix (filename : String) : String :=
  "." ++ String.mk ((splitOnChar '.' filename.data).getLastD [])

/-- Name of the temporary file a support upload is parsed from. -/
def uploadTempName (filename : String) : String := "tmpupload" ++ tempSuffix filename

/-- Parse one support upload through `_parse_document` on its temp file. -/
def parseUpload (f : UploadFile) : String :=
  _parse_document { name := uploadTempName f.filename, text := f.text,
                    pdfPages := f.pdfPages, pdfError := f.pdfError }

/-- The support-document loop (rag.py lines 108-125): each file is written to
a temp file, parsed off-thread, and kept as a `Document` when its parsed text
is non-empty; an exception while handling a file aborts the whole build with
a per-file processing error. -/
def ingestSupportDocs : List UploadFile → Except RagError (List LCDoc) × List IOEvent
  | [] => (.ok [], [])
  | f :: fs =>
    if f.readOk then
      let contentStr := parseUpload f
      let here : List LCDoc :=
        if contentStr ≠ "" then [{ page_content := contentStr, source := some f.filename, type := none }]
        else []
      match ingestSupportDocs fs with
      | (.ok docs, evs) =>
        (.ok (here ++ docs), IOEvent.readFile f.filename :: IOEvent.parseFile f.filename :: evs)
      | (.error e, evs) =>
        (.error e, IOEvent.readFile f.filename :: IOEvent.parseFile f.filename :: evs)
    else (.error (.processingError f.filename), [IOEvent.readFile f.filename])

/-- The HTML block (rag.py lines 127-151): the target page contributes two
documents — the full raw markup with role `html_full` and the extracted text
with role `html_text`, both under the HTML file's name. -/
def ingestHtmlDocs : Option UploadFile → Except RagError (List LCDoc) × List IOEvent
  | none => (.ok [], [])
  | some h =>
    if h.readOk then
      match h.text with
      | some full =>
        (.ok [{ page_content := full, source := some h.filename, type := some "html_full" },
              { page_content := htmlGetText full, source := some h.filename, type := some "html_text" }],
         [IOEvent.readFile h.filename, IOEvent.parseFile h.filename])
      | none => (.error (.processingError h.filename), [IOEvent.readFile h.filename])
    else (.error (.processingError h.filename), [IOEvent.readFile h.filename])

/-- The post-split filter (rag.py line 166): keep chunks whose content is
non-whitespace. -/
def filterChunks (docs : List LCDoc) : List LCDoc :=
  docs.filter (fun d => pyStrip d.page_content ≠ "")

/-- Embedding of `load_and_ingest_documents`: initialise the embedding model
if needed, assemble documents from the uploads, reject an empty document
list, split and filter, reject an empty corpus, then build the FAISS store,
publish it in memory and persist it.  The returned event list records the
file/embedding/persistence I/O performed. -/
def load_and_ingest_documents (cfg : Config) (st : RagState) (files : List UploadFile)
    (html_file : Option UploadFile) : Except RagError Unit × RagState × List IOEvent :=
  let st0 : RagState := { st with embeddingLoaded := true }
  match ingestSupportDocs files with
  | (.error e, evs1) => (.error e, st0, evs1)
  | (.ok docs1, evs1) =>
    match ingestHtmlDocs html_file with
    | (.error e, evs2) => (.error e, st0, evs1 ++ evs2)
    | (.ok docs2, evs2) =>
      let documents := docs1 ++ docs2
      if documents = [] then (.error .noValidDocuments, st0, evs1 ++ evs2)
      else
        let filtered := filterChunks (cfg.split documents)
        if filtered = [] then (.error .emptyCorpus, st0, evs1 ++ evs2)
        else
          let store : VectorStore := { docs := filtered, rank := cfg.rankSem filtered }
          (.ok (),
           { st0 with memory := some store, persisted := some store, persistDirExists := true },
           evs1 ++ evs2 ++ [IOEvent.embedTexts, IOEvent.persistIndex])

/-! ## Readiness and retrieval (rag.py lines 199-277, 465-467) -/

/-- Embedding of `is_knowledge_base_built`: an index is resident in memory or
`os.path.exists(FAISS_PERSIST_DIR)`.  The body only reads state, which the
returned unchanged state makes explicit. -/
def is_knowledge_base_built (st : RagState) : Bool × RagState :=
  (st.memory.isSome || st.persistDirExists, st)

/-- The lazy-load prelude shared by both retrieval functions (rag.py lines
201-220 / 241-260): with no in-memory store, load from disk when the persist
directory exists (an unloadable directory raises the load error), otherwise
fail not-ready.  The global is only assigned on a successful load. -/
def lazyLoadStore (st : RagState) : Except RagError RagState :=
  match st.memory with
  | some _ => .ok st
  | none =>
    if st.persistDirExists then
      match st.persisted with
      | some vs => .ok { st with memory := some vs }
      | none => .error .loadError
    else .error .notReady

/-- Embedding of `retrieve_context` (rag.py lines 199-236). -/
def retrieve_context (st : RagState) (query : String) (k : Nat) :
    Except RagError (List String) × RagState :=
  match lazyLoadStore st with
  | .error e => (.error e, st)
  | .ok st1 =>
    match st1.memory with
    | none => (.error .notReady, st1)
    | some vs =>
      if st1.embeddingLoaded then
        (.ok ((vs.search query k).map (fun d => d.page_content)), st1)
      else (.error .notReady, st1)

/-- Embedding of `retrieve_context_with_sources` (rag.py lines 238-277):
like `retrieve_context` but also returning, positionally, each chunk's
`source` metadata (with `"unknown_source"` for a chunk without one). -/
def retrieve_context_with_sources (st : RagState) (query : String) (k : Nat) :
    Except RagError (List String × List String) × RagState :=
  match lazyLoadStore st with
  | .error e => (.error e, st)
  | .ok st1 =>
    match st1.memory with
    | none => (.error .notReady, st1)
    | some vs =>
      if st1.embeddingLoaded then
        (.ok ((vs.search query k).map (fun d => d.page_content),
              (vs.search query k).map (fun d => d.source.getD "unknown_source")), st1)
      else (.error .notReady, st1)

/-- The `k = 4` default of both retrieval functions' signatures. -/
def retrieve_context_with_sources_defaultK (st : RagState) (query : String) :
    Except RagError (List String × List String) × RagState :=
  retrieve_context_with_sources st query 4

/-! ## Structured generation (generate_test_cases, rag.py lines 279-389) -/

/-- The `TestCase` pydantic model (src/app/models.py). -/
structure TestCase where
  Test_ID : String
  Feature : String
  Test_Scenario : String
  Expected_Result : String
  Grounded_In : List String
deriving DecidableEq, Repr

/-- `unique_sources = list(set(source_files))` (rag.py line 285): the unique
source names; Python's set iteration order is unspecified, the model keeps
first occurrences. -/
def uniqueSourcesOf (srcs : List String) : List String := srcs.dedup

/-- `[item.strip() for item in s.split(",") if item.strip()]` (rag.py
line 365): split on commas, strip each piece, drop empty pieces. -/
def pySplitCommaStrip (s : String) : List String :=
  (((splitOnChar ',' s.data).map (fun cs => String.mk (stripChars cs))).filter
    (fun x => x ≠ ""))

/-- `tc["Grounded_In"] == ["context"]` (rag.py line 369): a one-element list
holding exactly the string "context". -/
def isContextPlaceholder : List JsonValue → Bool
  | [JsonValue.str s] => s = "context"
  | _ => false

/-- The per-record `Grounded_In` normalisation (rag.py lines 362-372): a
string value is split into a comma-separated list; the literal placeholder
list `["context"]` is replaced by the retrieval's unique sources; every other
value is left unchanged. -/
def process_grounded_in (uniqueSources : List String)
    (tc : List (String × JsonValue)) : List (String × JsonValue) :=
  match objGet tc "Grounded_In" with
  | some (.str s) =>
    objUpsert tc "Grounded_In" (.arr ((pySplitCommaStrip s).map JsonValue.str))
  | some (.arr l) =>
    if isContextPlaceholder l then
      objUpsert tc "Grounded_In" (.arr (uniqueSources.map JsonValue.str))
    else tc
  | _ => tc

/-- `TestCase(**tc)` (rag.py line 374): the record validates when the four
text fields are JSON strings and `Grounded_In` is a JSON array of strings;
extra keys are ignored as pydantic does by default. -/
def validate_test_case (tc : List (String × JsonValue)) : Option TestCase :=
  match objGet tc "Test_ID", objGet tc "Feature", objGet tc "Test_Scenario",
      objGet tc "Expected_Result", objGet tc "Grounded_In" with
  | some (.str a), some (.str b), some (.str c), some (.str d), some (.arr l) =>
    match l.mapM (fun v => match v with | JsonValue.str s => some s | _ => none) with
    | some gs => some { Test_ID := a, Feature := b, Test_Scenario := c,
                        Expected_Result := d, Grounded_In := gs }
    | none => none
  | _, _, _, _, _ => none

/-- The failures raised inside the `try` block of `generate_test_cases`
before its own `except Exception` handler re-wraps them. -/
inductive InnerError where
  | formatExtractionFailed
  | formatNoArray
  | validationFailure
deriving DecidableEq, Repr

/-- `re.search(r"\[.*\]", s, re.DOTALL)` (rag.py line 340): with the greedy
quantifier this matches the substring from the first `[` to the last `]`
when the string has a `[` with some `]` after it, and nothing otherwise. -/
def extract_json_array (s : String) : Option String :=
  let cs := s.data
  match firstIdxOf '[' cs, lastIdxOf ']' cs with
  | some i, some j => if i < j then some (String.mk ((cs.drop i).take (j - i + 1))) else none
  | _, _ => none

/-- The ordered decode fallback (rag.py lines 336-354): direct `json.loads`
of the reply; on failure, extraction of the bracketed substring and a second
parse; failing both raises the corresponding format error. -/
def decode_llm_reply (s : String) : Except InnerError JsonValue :=
  match jsonLoads s with
  | some v => .ok v
  | none =>
    match extract_json_array s with
    | some sub =>
      match jsonLoads sub with
      | some v => .ok v
      | none => .error .formatExtractionFailed
    | none => .error .formatNoArray

/-- The one-level unwrap (rag.py lines 356-358): a top-level dict is replaced
by its `test_cases` value when that key exists, else kept as is. -/
def unwrap_test_cases : JsonValue → JsonValue
  | .obj fields =>
    match objGet fields "test_cases" with
    | some v => v
    | none => .obj fields
  | v => v

/-- The record loop (rag.py lines 360-375): each element must be a dict whose
fields validate after `Grounded_In` normalisation; iterating a non-list, a
non-dict element or a pydantic validation failure all raise and land in the
function's `except Exception` handler. -/
def process_records (us : List String) : JsonValue → Except InnerError (List TestCase)
  | .arr items =>
    items.mapM (fun it =>
      match it with
      | .obj o =>
        match validate_test_case (process_grounded_in us o) with
        | some t => Except.ok t
        | none => Except.error InnerError.validationFailure
      | _ => Except.error InnerError.validationFailure)
  | _ => .error .validationFailure

/-- The body of the `try` block of `generate_test_cases` from the model reply
on: decode, unwrap, process the records. -/
def generate_test_cases_inner (us : List String) (reply : String) :
    Except InnerError (List TestCase) :=
  match decode_llm_reply reply with
  | .ok v => process_records us (unwrap_test_cases v)
  | .error e => .error e

/-- What the caller of `generate_test_cases` observes for a given model
reply: the `except Exception` handler at rag.py line 383 catches every
failure raised in the `try` block — including the two `HTTPException`s the
block itself raises for unparseable replies — and re-raises the single
error "LLM returned incorrectly formatted test case data.". -/
def generate_test_cases_decode (us : List String) (reply : String) :
    Except RagError (List TestCase) :=
  match generate_test_cases_inner us reply with
  | .ok l => .ok l
  | .error _ => .error .invalidTestCaseData

/-- The grounding prompt of `generate_test_cases` (rag.py lines 288-324),
with the fixed instruction prose abbreviated; only its dependence on the
query, source list and context matters to any verified property. -/
def build_test_case_prompt (query sources_str context_str : String) : String :=
  "You are an expert QA engineer. Context from documents: " ++ sources_str ++
    " <context> " ++ context_str ++ " </context> Query: " ++ query ++
    " Provide ONLY a valid JSON array of test case objects."

/-- Embedding of `generate_test_cases` (rag.py lines 279-389): retrieve
context with sources at the default k, build the prompt, call the model and
decode its reply. -/
def generate_test_cases (cfg : Config) (st : RagState) (query : String) :
    Except RagError (List TestCase) × RagState :=
  match retrieve_context_with_sources_defaultK st query with
  | (.error e, st1) => (.error e, st1)
  | (.ok ctx, st1) =>
    let us := uniqueSourcesOf ctx.2
    let prompt := build_test_case_prompt query (String.intercalate ", " us)
      (String.intercalate "\n\n" ctx.1)
    (generate_test_cases_decode us (cfg.llm prompt), st1)

/-! ## Script generation (generate_selenium_script, rag.py lines 391-463) -/

/-- The metadata filter of the target-markup search (rag.py line 407):
`source == "checkout.html" and type == "html_full"`. -/
def target_markup_pred (d : LCDoc) : Bool :=
  d.source = some "checkout.html" && d.type = some "html_full"

/-- The script prompt (rag.py lines 418-447), fixed prose abbreviated. -/
def build_script_prompt (html context : String) (tc : TestCase) : String :=
  "You are an expert Python Selenium developer. <html_structure> " ++ html ++
    " </html_structure> <context> " ++ context ++ " </context> Test Scenario: " ++
    tc.Test_Scenario ++ " Expected Result: " ++ tc.Expected_Result ++
    " Output only the Python code."

/-- The `try` block of `generate_selenium_script` (rag.py lines 402-457):
search the store broadly (k = 10) for the fixed query "checkout.html", take
the first hit passing the metadata filter, fail with the target-markup error
when none has content, retrieve k = 2 context chunks for the scenario, and
return the model reply for the combined prompt. -/
def generate_selenium_script_try (cfg : Config) (st : RagState) (tc : TestCase)
    (vs : VectorStore) : Except RagError String × RagState :=
  let html_docs := vs.search "checkout.html" 10
  let html_content := ((html_docs.find? target_markup_pred).map
    (fun d => d.page_content)).getD ""
  if html_content = "" then (.error .targetMarkupNotFound, st)
  else
    match retrieve_context st tc.Test_Scenario 2 with
    | (.error e, st1) => (.error e, st1)
    | (.ok ctx, st1) =>
      (.ok (cfg.llm (build_script_prompt html_content (String.intercalate "\n\n" ctx) tc)), st1)

/-- Embedding of `generate_selenium_script`: a missing in-memory store first
triggers the lazy load through `retrieve_context("dummy_query_to_load")`
(whose failures propagate unwrapped), the not-ready guard re-checks the
globals, and the `except Exception` handler at rag.py line 459 turns every
failure of the `try` block — including its own target-markup
`HTTPException` — into the generic script-generation error. -/
def generate_selenium_script (cfg : Config) (st : RagState) (tc : TestCase) :
    Except RagError String × RagState :=
  match (if st.memory.isNone then retrieve_context st "dummy_query_to_load" 4
         else (.ok [], st)) with
  | (.error e, st1) => (.error e, st1)
  | (.ok _, st1) =>
    match st1.memory with
    | none => (.error .notReady, st1)
    | some vs =>
      if st1.embeddingLoaded then
        match generate_selenium_script_try cfg st1 tc vs with
        | (.ok s, st2) => (.ok s, st2)
        | (.error _, st2) => (.error .scriptGenerationError, st2)
      else (.error .notReady, st1)

/-! ## The build endpoint (src/main.py lines 38-68) -/

def validDocSuffixes : List String := [".md", ".txt", ".json"]

def validHtmlSuffixes : List String := [".html", ".htm"]

/-- Embedding of the `/build_knowledge_base` handler.  Both parameters are
declared `File(...)` — required — so FastAPI's validation layer rejects a
multipart request carrying no file for either field with a 422 before the
handler body runs (a zero-document upload set is exactly a request without
the `documents` field); this framework step is modelled by the first guard.
The handler then rejects disallowed extensions — a file with a falsy (empty)
name skips its check — and hands over to ingestion. -/
def build_knowledge_base (cfg : Config) (st : RagState) (documents : List UploadFile)
    (html_file : Option UploadFile) : Except RagError Unit × RagState × List IOEvent :=
  if documents.isEmpty || html_file.isNone then (.error .fieldRequired, st, [])
  else
    match documents.find? (fun d =>
        d.filename ≠ "" && !(validDocSuffixes.contains (pyLower (pathSuffix d.filename)))) with
    | some d => (.error (.unsupportedDocumentType d.filename), st, [])
    | none =>
      match html_file with
      | none => (.error .fieldRequired, st, [])
      | some h =>
        if h.filename ≠ "" && !(validHtmlSuffixes.contains (pyLower (pathSuffix h.filename))) then
          (.error (.unsupportedHtmlType h.filename), st, [])
        else load_and_ingest_documents cfg st documents html_file

/-! ## Concrete fixtures used by witnesses and counterexamples -/

/-- A concrete environment: the identity splitter, insertion-order ranking,
and a model echoing its prompt. -/
def cfgId : Config :=
  { split := fun ds => ds, rankSem := fun docs _ => List.range docs.length,
    llm := fun p => p }

def stEmpty : RagState :=
  { memory := none, embeddingLoaded := false, persistDirExists := false, persisted := none }

def docA : LCDoc :=
  { page_content := "Checkout page docs", source := some "specs.md", type := none }

def storeA : VectorStore := { docs := [docA], rank := fun _ => [0] }

def stDisk : RagState :=
  { memory := none, embeddingLoaded := true, persistDirExists := true, persisted := some storeA }

def docCheckout : LCDoc :=
  { page_content := "<html><body>checkout</body></html>", source := some "checkout.html",
    type := some "html_full" }

def storeCk : VectorStore := { docs := [docCheckout, docA], rank := fun _ => [0, 1] }

def stCk : RagState :=
  { memory := some storeCk, embeddingLoaded := true, persistDirExists := true,
    persisted := some storeCk }

def tcSample : TestCase :=
  { Test_ID := "TC-001", Feature := "Checkout", Test_Scenario := "do thing",
    Expected_Result := "it works", Grounded_In := ["specs.md"] }

/-! ## C7 -/

/-- C7: `is_knowledge_base_built` returns true exactly when an index is
resident in memory or the persistence directory exists on disk (the
condition `os.path.exists(FAISS_PERSIST_DIR)` tests), and it returns the
process state unchanged — it performs no load. -/
theorem c7_is_ready_iff_memory_or_persist_dir (st : RagState) :
    ((is_knowledge_base_built st).1 = true ↔
      (st.memory.isSome = true ∨ st.persistDirExists = true)) ∧
    (is_knowledge_base_built st).2 = st := by
  constructor
  · simp [is_knowledge_base_built]
  · rfl

/-! ## C8 -/

/-- C8: a build request with zero documents or without an HTML file is
rejected by the required-field validation that the `File(...)` declarations
of `/build_knowledge_base` induce, before the handler body runs: the state
is unchanged and no read/parse/embed/persist event occurs. -/
theorem c8_missing_inputs_rejected_before_io (cfg : Config) (st : RagState)
    (documents : List UploadFile) (html_file : Option UploadFile)
    (h : documents = [] ∨ html_file = none) :
    build_knowledge_base cfg st documents html_file =
      (.error .fieldRequired, st, []) := by
  rcases h with h | h <;> subst h <;> simp [build_knowledge_base]

def uploadCheckout : UploadFile :=
  { filename := "checkout.html", text := some "<html><body>checkout</body></html>",
    pdfPages := [], pdfError := false, readOk := true }

/-- C8 witness: the empty upload set is rejected with no I/O events. -/
theorem c8_missing_inputs_rejected_before_io_witness :
    build_knowledge_base cfgId stEmpty [] (some uploadCheckout) =
      (.error .fieldRequired, stEmpty, []) :=
  c8_missing_inputs_rejected_before_io cfgId stEmpty [] (some uploadCheckout) (Or.inl rfl)

/-! ## C4 -/

theorem ingestSupportDocs_no_persist (files : List UploadFile) :
    IOEvent.persistIndex ∉ (ingestSupportDocs files).2 := by
  induction files with
  | nil => simp [ingestSupportDocs]
  | cons f fs ih =>
    by_cases hro : f.readOk
    · rcases hre : ingestSupportDocs fs with ⟨r, evs⟩
      rw [hre] at ih
      cases r <;> simp_all [ingestSupportDocs, hro, hre]
    · simp [ingestSupportDocs, hro]

theorem ingestHtmlDocs_no_persist (html_file : Option UploadFile) :
    IOEvent.persistIndex ∉ (ingestHtmlDocs html_file).2 := by
  cases html_file with
  | none => simp [ingestHtmlDocs]
  | some h =>
    by_cases hro : h.readOk
    · cases ht : h.text <;> simp [ingestHtmlDocs, hro, ht]
    · simp [ingestHtmlDocs, hro]

/-- The document list `load_and_ingest_documents` assembles from the uploads
before splitting, when no upload raises. -/
def assembledDocs (files : List UploadFile) (html_file : Option UploadFile) :
    Option (List LCDoc) :=
  match (ingestSupportDocs files).1, (ingestHtmlDocs html_file).1 with
  | .ok a, .ok b => some (a ++ b)
  | _, _ => none

/-- C4: when the assembled document batch is non-empty but zero
non-whitespace chunks remain after splitting and filtering, the build fails
with the empty-corpus error; the in-memory store, the persisted store and
the persist directory are untouched and no persist event is emitted. -/
theorem c4_empty_corpus_fails_without_persist (cfg : Config) (st : RagState)
    (files : List UploadFile) (html_file : Option UploadFile) (docs : List LCDoc)
    (hdocs : assembledDocs files html_file = some docs)
    (hne : docs ≠ [])
    (hempty : filterChunks (cfg.split docs) = []) :
    (load_and_ingest_documents cfg st files html_file).1 = .error .emptyCorpus ∧
    (load_and_ingest_documents cfg st files html_file).2.1.persisted = st.persisted ∧
    (load_and_ingest_documents cfg st files html_file).2.1.persistDirExists =
      st.persistDirExists ∧
    (load_and_ingest_documents cfg st files html_file).2.1.memory = st.memory ∧
    IOEvent.persistIndex ∉ (load_and_ingest_documents cfg st files html_file).2.2 := by
  rcases h1 : ingestSupportDocs files with ⟨r1, evs1⟩
  rcases h2 : ingestHtmlDocs html_file with ⟨r2, evs2⟩
  cases r1 with
  | error e => simp [assembledDocs, h1] at hdocs
  | ok docs1 =>
    cases r2 with
    | error e => simp [assembledDocs, h1, h2] at hdocs
    | ok docs2 =>
      have hd : docs1 ++ docs2 = docs := by
        simpa [assembledDocs, h1, h2] using hdocs
      have hp1 := ingestSupportDocs_no_persist files
      have hp2 := ingestHtmlDocs_no_persist html_file
      rw [h1] at hp1
      rw [h2] at hp2
      refine ⟨?_, ?_, ?_, ?_, ?_⟩ <;>
        simp [load_and_ingest_documents, h1, h2, hd, hne, hempty, hp1, hp2]

def uploadWs : UploadFile :=
  { filename := "a.txt", text := some "   ", pdfPages := [], pdfError := false,
    readOk := true }

def docWs : LCDoc := { page_content := "   ", source := some "a.txt", type := none }

/-- C4 witness: a batch whose only chunk is whitespace fails with the
empty-corpus error and persists nothing. -/
theorem c4_empty_corpus_fails_without_persist_witness :
    (load_and_ingest_documents cfgId stEmpty [uploadWs] none).1 = .error .emptyCorpus ∧
    (load_and_ingest_documents cfgId stEmpty [uploadWs] none).2.1.persisted =
      stEmpty.persisted ∧
    (load_and_ingest_documents cfgId stEmpty [uploadWs] none).2.1.persistDirExists =
      stEmpty.persistDirExists ∧
    (load_and_ingest_documents cfgId stEmpty [uploadWs] none).2.1.memory = stEmpty.memory ∧
    IOEvent.persistIndex ∉ (load_and_ingest_documents cfgId stEmpty [uploadWs] none).2.2 :=
  c4_empty_corpus_fails_without_persist cfgId stEmpty [uploadWs] none [docWs]
    rfl (by decide) rfl

/-! ## C5 -/

/-- C5: with no in-memory index and no persist directory, retrieval fails
not-ready with the state unchanged; with no in-memory index but a loadable
persisted one, retrieval loads it into memory; a successful retrieval
returns the top-k chunk texts together with positionally aligned source
names; and the bare call is the k = 4 call. -/
theorem c5_retrieval_lazy_load_and_alignment (st : RagState) (q : String) (k : Nat) :
    (st.memory = none → st.persistDirExists = false →
      retrieve_context_with_sources st q k = (.error .notReady, st)) ∧
    (∀ vs, st.memory = none → st.persistDirExists = true → st.persisted = some vs →
      (retrieve_context_with_sources st q k).2.memory = some vs) ∧
    (∀ texts srcs, (retrieve_context_with_sources st q k).1 = .ok (texts, srcs) →
      ∃ vs, (retrieve_context_with_sources st q k).2.memory = some vs ∧
        texts = (vs.search q k).map (fun d => d.page_content) ∧
        srcs = (vs.search q k).map (fun d => d.source.getD "unknown_source") ∧
        texts.length = srcs.length) ∧
    retrieve_context_with_sources_defaultK st q = retrieve_context_with_sources st q 4 := by
  refine ⟨?_, ?_, ?_, rfl⟩
  · intro h1 h2
    simp [retrieve_context_with_sources, lazyLoadStore, h1, h2]
  · intro vs h1 h2 h3
    by_cases he : st.embeddingLoaded <;>
      simp [retrieve_context_with_sources, lazyLoadStore, h1, h2, h3, he]
  · intro texts srcs hok
    rcases st with ⟨mem, emb, dir, pers⟩
    cases mem with
    | some vs =>
      cases emb with
      | false => simp [retrieve_context_with_sources, lazyLoadStore] at hok
      | true =>
        refine ⟨vs, rfl, ?_⟩
        simp [retrieve_context_with_sources, lazyLoadStore] at hok
        refine ⟨hok.1.symm, hok.2.symm, ?_⟩
        rw [hok.1.symm, hok.2.symm]
        simp
    | none =>
      cases dir with
      | false => simp [retrieve_context_with_sources, lazyLoadStore] at hok
      | true =>
        cases pers with
        | none => simp [retrieve_context_with_sources, lazyLoadStore] at hok
        | some vs =>
          cases emb with
          | false => simp [retrieve_context_with_sources, lazyLoadStore] at hok
          | true =>
            refine ⟨vs, rfl, ?_⟩
            simp [retrieve_context_with_sources, lazyLoadStore] at hok
            refine ⟨hok.1.symm, hok.2.symm, ?_⟩
            rw [hok.1.symm, hok.2.symm]
            simp

/-- C5 witness: the not-ready failure at a state with neither store, and the
lazy load at a state with only a persisted store. -/
theorem c5_retrieval_lazy_load_and_alignment_witness :
    retrieve_context_with_sources stEmpty "query" 4 = (.error .notReady, stEmpty) ∧
    (retrieve_context_with_sources stDisk "query" 4).2.memory = some storeA :=
  ⟨(c5_retrieval_lazy_load_and_alignment stEmpty "query" 4).1 rfl rfl,
   (c5_retrieval_lazy_load_and_alignment stDisk "query" 4).2.1 storeA rfl rfl rfl⟩

/-! ## C2 -/

theorem objGet_objUpsert (fields : List (String × JsonValue)) (k : String) (v : JsonValue) :
    objGet (objUpsert fields k v) k = some v := by
  induction fields with
  | nil => simp [objUpsert, objGet]
  | cons p ps ih =>
    by_cases hp : p.1 = k
    · simp [objUpsert, hp, objGet]
    · simp [objUpsert, hp, objGet] at ih ⊢
      exact ih

theorem isContextPlaceholder_iff (l : List JsonValue) :
    isContextPlaceholder l = true ↔ l = [JsonValue.str "context"] := by
  cases l with
  | nil => simp [isContextPlaceholder]
  | cons x xs =>
    cases xs with
    | cons y ys => cases x <;> simp [isContextPlaceholder]
    | nil => cases x <;> simp [isContextPlaceholder]

/-- C2: a record whose `Grounded_In` is exactly the one-element placeholder
list `["context"]` has it replaced with the unique source names of the
retrieval; a record whose `Grounded_In` is any other list is passed through
unchanged; and the unique-source list used for the replacement has exactly
the retrieved source names as elements, without duplicates. -/
theorem c2_context_placeholder_replaced (us : List String)
    (fields : List (String × JsonValue)) :
    (objGet fields "Grounded_In" = some (.arr [.str "context"]) →
      objGet (process_grounded_in us fields) "Grounded_In" =
        some (.arr (us.map JsonValue.str))) ∧
    (∀ l, objGet fields "Grounded_In" = some (.arr l) →
      l ≠ [JsonValue.str "context"] → process_grounded_in us fields = fields) ∧
    ((∀ srcs : List String, (uniqueSourcesOf srcs).Nodup) ∧
      (∀ (srcs : List String) (x : String), x ∈ uniqueSourcesOf srcs ↔ x ∈ srcs)) := by
  refine ⟨?_, ?_, fun srcs => List.nodup_dedup srcs, fun srcs x => List.mem_dedup⟩
  · intro h
    simp only [process_grounded_in, h, isContextPlaceholder, if_pos]
    exact objGet_objUpsert fields "Grounded_In" _
  · intro l h hne
    have hfalse : isContextPlaceholder l = false := by
      rcases hb : isContextPlaceholder l with _ | _
      · rfl
      · exact absurd ((isContextPlaceholder_iff l).mp hb) hne
    simp [process_grounded_in, h, hfalse]

def fieldsC2 : List (String × JsonValue) :=
  [("Test_ID", .str "TC-009"), ("Feature", .str "Checkout"),
   ("Test_Scenario", .str "open the page"), ("Expected_Result", .str "page opens"),
   ("Grounded_In", .arr [.str "context"])]

/-- C2 witness: the placeholder list of a concrete record is replaced by the
retrieval's unique sources. -/
theorem c2_context_placeholder_replaced_witness :
    objGet (process_grounded_in ["specs.md", "ui.txt"] fieldsC2) "Grounded_In" =
      some (.arr (["specs.md", "ui.txt"].map JsonValue.str)) :=
  (c2_context_placeholder_replaced ["specs.md", "ui.txt"] fieldsC2).1 rfl

/-! ## C3 -/

/-- The model reply of the claim's example, verbatim. -/
def c3ExampleReply : String :=
  "[\x7b\"Test_ID\":\"TC-001\",\"Feature\":\"Discount\",\"Test_Scenario\":\"Apply SAVE15\",\"Expected_Result\":\"Price reduced 15%\",\"Grounded_In\":\"specs.md, ui.txt\"\x7d]"

/-- C3: a record whose `Grounded_In` is a string is normalised by splitting
on commas, stripping whitespace and dropping empty pieces; in particular the
example reply decodes to the expected `TestCase`, with
`Grounded_In = ["specs.md", "ui.txt"]`. -/
theorem c3_grounded_in_string_split (us : List String)
    (fields : List (String × JsonValue)) (s : String) :
    (objGet fields "Grounded_In" = some (.str s) →
      objGet (process_grounded_in us fields) "Grounded_In" =
        some (.arr ((pySplitCommaStrip s).map JsonValue.str))) ∧
    pySplitCommaStrip "specs.md, ui.txt" = ["specs.md", "ui.txt"] ∧
    generate_test_cases_decode [] c3ExampleReply =
      .ok [{ Test_ID := "TC-001", Feature := "Discount", Test_Scenario := "Apply SAVE15",
             Expected_Result := "Price reduced 15%",
             Grounded_In := ["specs.md", "ui.txt"] }] := by
  refine ⟨?_, rfl, rfl⟩
  intro h
  simp only [process_grounded_in, h]
  exact objGet_objUpsert fields "Grounded_In" _

def fieldsC3 : List (String × JsonValue) :=
  [("Test_ID", .str "TC-010"), ("Feature", .str "Cart"),
   ("Test_Scenario", .str "add item"), ("Expected_Result", .str "item added"),
   ("Grounded_In", .str " specs.md ,ui.txt, ")]

/-- C3 witness: a concrete string-valued `Grounded_In` splits into the
stripped non-empty pieces. -/
theorem c3_grounded_in_string_split_witness :
    objGet (process_grounded_in [] fieldsC3) "Grounded_In" =
      some (.arr ((pySplitCommaStrip " specs.md ,ui.txt, ").map JsonValue.str)) :=
  (c3_grounded_in_string_split [] fieldsC3 " specs.md ,ui.txt, ").1 rfl

/-! ## C1 -/

/-- C1 counterexample: for a reply with no parseable JSON and no bracketed
substring, the claim says the call fails with the format error ("no array
found"); the code raises that error inside its own `try` block, whose
`except Exception` handler replaces it, so the observable failure is the
schema-validation message "LLM returned incorrectly formatted test case
data." instead. -/
theorem c1_claim_counterexample :
    generate_test_cases_decode ["specs.md"] "the model returned prose only" ≠
      .error .invalidJsonNoArray ∧
    generate_test_cases_decode ["specs.md"] "the model returned prose only" ≠
      .error .invalidJsonExtractionFailed ∧
    generate_test_cases_decode ["specs.md"] "the model returned prose only" =
      .error .invalidTestCaseData ∧
    generate_test_cases_inner ["specs.md"] "the model returned prose only" =
      .error .formatNoArray := by
  refine ⟨?_, ?_, rfl, rfl⟩ <;> decide

/-- C1 (amended): the decode fallback is applied in order — a successful
direct parse is used as is; on failure the substring from the first `[` to
the last `]` is extracted and parsed; when no such substring exists, or its
parse also fails, the corresponding format error is raised inside the `try`
block; a parsed top-level object is unwrapped through its `test_cases` key —
but every failure the caller observes is the single re-wrapped error "LLM
returned incorrectly formatted test case data.". -/
theorem c1_decode_fallback_order (us : List String) (reply : String) :
    (∀ v, jsonLoads reply = some v →
      generate_test_cases_inner us reply = process_records us (unwrap_test_cases v)) ∧
    (jsonLoads reply = none → extract_json_array reply = none →
      generate_test_cases_inner us reply = .error .formatNoArray ∧
      generate_test_cases_decode us reply = .error .invalidTestCaseData) ∧
    (∀ sub, jsonLoads reply = none → extract_json_array reply = some sub →
      jsonLoads sub = none →
      generate_test_cases_inner us reply = .error .formatExtractionFailed ∧
      generate_test_cases_decode us reply = .error .invalidTestCaseData) ∧
    (∀ sub v, jsonLoads reply = none → extract_json_array reply = some sub →
      jsonLoads sub = some v →
      generate_test_cases_inner us reply = process_records us (unwrap_test_cases v)) ∧
    (∀ fields v, jsonLoads reply = some (.obj fields) →
      objGet fields "test_cases" = some v →
      generate_test_cases_inner us reply = process_records us v) ∧
    (∀ e, generate_test_cases_inner us reply = .error e →
      generate_test_cases_decode us reply = .error .invalidTestCaseData) := by
  refine ⟨?_, ?_, ?_, ?_, ?_, ?_⟩
  · intro v h
    simp [generate_test_cases_inner, decode_llm_reply, h]
  · intro h1 h2
    simp [generate_test_cases_inner, generate_test_cases_decode, decode_llm_reply, h1, h2]
  · intro sub h1 h2 h3
    simp [generate_test_cases_inner, generate_test_cases_decode, decode_llm_reply,
      h1, h2, h3]
  · intro sub v h1 h2 h3
    simp [generate_test_cases_inner, decode_llm_reply, h1, h2, h3]
  · intro fields v h1 h2
    simp [generate_test_cases_inner, decode_llm_reply, h1, unwrap_test_cases, h2]
  · intro e h
    simp [generate_test_cases_decode, h]

/-- C1 witness: a reply wrapping an array in prose is decoded through the
extraction fallback. -/
theorem c1_decode_fallback_order_witness :
    generate_test_cases_inner ["s.md"] "here you go: [true] done" =
      process_records ["s.md"] (unwrap_test_cases (JsonValue.arr [JsonValue.bool true])) :=
  (c1_decode_fallback_order ["s.md"] "here you go: [true] done").2.2.2.1 "[true]"
    (JsonValue.arr [JsonValue.bool true]) rfl rfl rfl

/-! ## C9 -/

/-- C9 counterexample: `page.html` with the non-empty markup
`<div></div>` is a non-empty file of a supported type, yet `_parse_document`
returns empty text, because the markup has no text content to extract. -/
theorem c9_claim_counterexample :
    _parse_document
      { name := "page.html", text := some "<div></div>", pdfPages := [],
        pdfError := false } = "" ∧
    "<div></div>" ≠ "" := by
  refine ⟨rfl, ?_⟩
  decide

/-- C9 (amended): `parse` is total — on a supported type it returns the
extracted text, which may be empty even for a non-empty file when it yields
no extractable text (an HTML file with no text content, an unparseable JSON
file, a PDF without page text); on an unsupported type it returns empty text
without raising; and any single-file parsing error is caught internally and
yields the content accumulated at the point of failure — the empty string in
every non-PDF branch (and for a PDF that fails to open), but the
concatenation of the pages already extracted when PDF extraction raises
mid-way, which can be non-empty partial text rather than the empty string. -/
theorem c9_parse_total_and_empty_cases (f : SrcFile) :
    (pyLower (pathSuffix f.name) ∉ [".md", ".txt", ".json", ".pdf", ".html"] →
      _parse_document f = "") ∧
    (f.text = none → pyLower (pathSuffix f.name) ≠ ".pdf" → _parse_document f = "") ∧
    (pyLower (pathSuffix f.name) = ".pdf" → _parse_document f = String.join f.pdfPages) ∧
    (pyLower (pathSuffix f.name) = ".pdf" → f.pdfError = true → f.pdfPages = [] →
      _parse_document f = "") ∧
    (∀ t, (pyLower (pathSuffix f.name) = ".md" ∨ pyLower (pathSuffix f.name) = ".txt") →
      f.text = some t → _parse_document f = t) ∧
    (∀ t, pyLower (pathSuffix f.name) = ".json" → f.text = some t → jsonLoads t = none →
      _parse_document f = "") ∧
    (∀ t v, pyLower (pathSuffix f.name) = ".json" → f.text = some t →
      jsonLoads t = some v → _parse_document f = jsonDumps v) ∧
    (∀ t, pyLower (pathSuffix f.name) = ".html" → f.text = some t →
      _parse_document f = htmlGetText t) := by
  have hpdfBranch : pyLower (pathSuffix f.name) = ".pdf" →
      _parse_document f = String.join f.pdfPages := by
    intro hsfx
    have hmd : pyLower (pathSuffix f.name) ≠ ".md" := by simp [hsfx]
    have htxt : pyLower (pathSuffix f.name) ≠ ".txt" := by simp [hsfx]
    have hjson : pyLower (pathSuffix f.name) ≠ ".json" := by simp [hsfx]
    simp [_parse_document, hmd, htxt, hjson, hsfx]
  refine ⟨?_, ?_, hpdfBranch, ?_, ?_, ?_, ?_, ?_⟩
  · intro h
    simp only [List.mem_cons, List.not_mem_nil, or_false, not_or] at h
    obtain ⟨hmd, htxt, hjson, hpdf, hhtml⟩ := h
    simp [_parse_document, hmd, htxt, hjson, hpdf, hhtml]
  · intro ht hpdf
    by_cases hmd : pyLower (pathSuffix f.name) = ".md" <;>
      by_cases htxt : pyLower (pathSuffix f.name) = ".txt" <;>
      by_cases hjson : pyLower (pathSuffix f.name) = ".json" <;>
      by_cases hhtml : pyLower (pathSuffix f.name) = ".html" <;>
      simp [_parse_document, hmd, htxt, hjson, hpdf, hhtml, ht]
  · intro hsfx _ hps
    rw [hpdfBranch hsfx, hps]
    rfl
  · intro t hsfx ht
    rcases hsfx with h | h <;> simp [_parse_document, h, ht]
  · intro t hsfx ht hload
    have hmd : pyLower (pathSuffix f.name) ≠ ".md" := by simp [hsfx]
    have htxt : pyLower (pathSuffix f.name) ≠ ".txt" := by simp [hsfx]
    simp [_parse_document, hmd, htxt, hsfx, ht, hload]
  · intro t v hsfx ht hload
    have hmd : pyLower (pathSuffix f.name) ≠ ".md" := by simp [hsfx]
    have htxt : pyLower (pathSuffix f.name) ≠ ".txt" := by simp [hsfx]
    simp [_parse_document, hmd, htxt, hsfx, ht, hload]
  · intro t hsfx ht
    have hmd : pyLower (pathSuffix f.name) ≠ ".md" := by simp [hsfx]
    have htxt : pyLower (pathSuffix f.name) ≠ ".txt" := by simp [hsfx]
    have hjson : pyLower (pathSuffix f.name) ≠ ".json" := by simp [hsfx]
    have hpdf : pyLower (pathSuffix f.name) ≠ ".pdf" := by simp [hsfx]
    simp [_parse_document, hmd, htxt, hjson, hpdf, hsfx, ht]

/-- C9 witness: a Markdown file reads back its raw text, and a PDF whose
extraction raised after two pages returns the accumulated partial text —
caught, but not the empty string. -/
theorem c9_parse_total_and_empty_cases_witness :
    _parse_document
      { name := "notes.md", text := some "hello corpus", pdfPages := [],
        pdfError := false } = "hello corpus" ∧
    _parse_document
      { name := "scan.pdf", text := none, pdfPages := ["page one ", "page two"],
        pdfError := true } = String.join ["page one ", "page two"] :=
  ⟨(c9_parse_total_and_empty_cases
      { name := "notes.md", text := some "hello corpus", pdfPages := [],
        pdfError := false }).2.2.2.2.1 "hello corpus" (Or.inl rfl) rfl,
   (c9_parse_total_and_empty_cases
      { name := "scan.pdf", text := none, pdfPages := ["page one ", "page two"],
        pdfError := true }).2.2.1 rfl⟩

/-! ## C6 -/

def storeNoCk : VectorStore := { docs := [docA], rank := fun _ => [0] }

def stNoCk : RagState :=
  { memory := some storeNoCk, embeddingLoaded := true, persistDirExists := true,
    persisted := some storeNoCk }

/-- C6 counterexample: on a knowledge base without a `checkout.html`
markup chunk the claim says the call fails with `TargetMarkupNotFound`; the
code raises that error inside its `try` block, but the `except Exception`
handler re-wraps it, so the caller observes the generic script-generation
error instead. -/
theorem c6_claim_counterexample :
    (generate_selenium_script cfgId stNoCk tcSample).1 = .error .scriptGenerationError ∧
    (generate_selenium_script cfgId stNoCk tcSample).1 ≠ .error .targetMarkupNotFound ∧
    (generate_selenium_script_try cfgId stNoCk tcSample storeNoCk).1 =
      .error .targetMarkupNotFound := by
  refine ⟨rfl, ?_, rfl⟩
  decide

/-- C6 (amended): with a loaded store, the target markup is looked up by a
broad `k = 10` search for the fixed query "checkout.html" followed by the
hard metadata filter (source `checkout.html`, role `html_full`); when no hit
with content passes the filter, the target-markup error is raised internally
and the call surfaces the re-wrapped generic script-generation error; when a
hit passes, the script prompt combines its raw markup with the `k = 2`
context retrieved for the test case's scenario text. -/
theorem c6_target_markup_filter (cfg : Config) (st : RagState) (tc : TestCase)
    (vs : VectorStore) (hmem : st.memory = some vs) (hemb : st.embeddingLoaded = true) :
    ((((vs.search "checkout.html" 10).find? target_markup_pred).map
        (fun d => d.page_content)).getD "" = "" →
      generate_selenium_script_try cfg st tc vs = (.error .targetMarkupNotFound, st) ∧
      generate_selenium_script cfg st tc = (.error .scriptGenerationError, st)) ∧
    (∀ d ctx st1, (vs.search "checkout.html" 10).find? target_markup_pred = some d →
      d.page_content ≠ "" →
      retrieve_context st tc.Test_Scenario 2 = (.ok ctx, st1) →
      generate_selenium_script cfg st tc =
        (.ok (cfg.llm (build_script_prompt d.page_content
          (String.intercalate "\n\n" ctx) tc)), st1)) := by
  constructor
  · intro hcond
    constructor
    · simp [generate_selenium_script_try, hcond]
    · simp [generate_selenium_script, hmem, hemb, generate_selenium_script_try, hcond]
  · intro d ctx st1 hfind hne hret
    simp [generate_selenium_script, hmem, hemb, generate_selenium_script_try,
      hfind, hne, hret]

/-- C6 witness: on a store whose search returns the `checkout.html` markup
chunk first, the script call succeeds with the combined prompt. -/
theorem c6_target_markup_filter_witness :
    generate_selenium_script cfgId stCk tcSample =
      (.ok (cfgId.llm (build_script_prompt docCheckout.page_content
        (String.intercalate "\n\n"
          ["<html><body>checkout</body></html>", "Checkout page docs"]) tcSample)), stCk) :=
  (c6_target_markup_filter cfgId stCk tcSample storeCk rfl rfl).2 docCheckout
    ["<html><body>checkout</body></html>", "Checkout page docs"] stCk rfl (by decide) rfl

/-! ## C10 -/

theorem VectorStore.search_subset (vs : VectorStore) (q : String) (k : Nat) :
    ∀ d ∈ vs.search q k, d ∈ vs.docs := by
  intro d hd
  simp only [VectorStore.search, List.mem_filterMap] at hd
  rcases hd with ⟨i, _, hget⟩
  exact List.get?_mem hget

def docLogin : LCDoc :=
  { page_content := "<html>login form</html>", source := some "login.html",
    type := some "html_full" }

def storeLogin : VectorStore := { docs := [docLogin], rank := fun _ => [0] }

def stLogin : RagState :=
  { memory := some storeLogin, embeddingLoaded := true, persistDirExists := true,
    persisted := some storeLogin }

/-- C10 counterexample: a knowledge base built for the target file
`login.html` holds an `html_full` chunk for it, and script generation fails —
but, against the claim's wording, the observable error is the re-wrapped
generic script-generation error, not the target-markup error. -/
theorem c10_claim_counterexample :
    (∃ d, d ∈ storeLogin.docs ∧ d.type = some "html_full" ∧
      d.source = some "login.html") ∧
    (generate_selenium_script cfgId stLogin tcSample).1 = .error .scriptGenerationError ∧
    (generate_selenium_script cfgId stLogin tcSample).1 ≠ .error .targetMarkupNotFound := by
  refine ⟨⟨docLogin, by decide, rfl, rfl⟩, rfl, by decide⟩

/-- C10 (amended): both the similarity query and the metadata filter of the
markup lookup use the literal name "checkout.html" — the filter only ever
accepts chunks with that source — so on any knowledge base holding no chunk
of that source (in particular one built for a target HTML file of any other
name, however many `html_full` chunks it has), the target-markup-not-found
error is raised internally and the call fails with the re-wrapped generic
script-generation error. -/
theorem c10_target_name_hardcoded (cfg : Config) (st : RagState) (tc : TestCase)
    (vs : VectorStore) (hmem : st.memory = some vs) (hemb : st.embeddingLoaded = true)
    (hother : ∀ d ∈ vs.docs, d.source ≠ some "checkout.html") :
    generate_selenium_script_try cfg st tc vs = (.error .targetMarkupNotFound, st) ∧
    generate_selenium_script cfg st tc = (.error .scriptGenerationError, st) ∧
    (∀ d, target_markup_pred d = true → d.source = some "checkout.html") := by
  have hfind : (vs.search "checkout.html" 10).find? target_markup_pred = none := by
    rw [List.find?_eq_none]
    intro d hd
    have hdoc := VectorStore.search_subset vs "checkout.html" 10 d hd
    have hne := hother d hdoc
    simp [target_markup_pred, hne]
  refine ⟨?_, ?_, ?_⟩
  · simp [generate_selenium_script_try, hfind]
  · simp [generate_selenium_script, hmem, hemb, generate_selenium_script_try, hfind]
  · intro d h
    simp [target_markup_pred] at h
    exact h.1

/-- C10 witness: the failure on the `login.html` knowledge base, by the
amended theorem. -/
theorem c10_target_name_hardcoded_witness :
    generate_selenium_script_try cfgId stLogin tcSample storeLogin =
      (.error .targetMarkupNotFound, stLogin) ∧
    generate_selenium_script cfgId stLogin tcSample =
      (.error .scriptGenerationError, stLogin) :=
  ⟨(c10_target_name_hardcoded cfgId stLogin tcSample storeLogin rfl rfl (by decide)).1,
   (c10_target_name_hardcoded cfgId stLogin tcSample storeLogin rfl rfl (by decide)).2.1⟩
